import Mathlib

/-!
Verification development for the Multifronts inventory decision engine.

The definitions below are a shallow embedding of the Python source:
* `save_orders`, `save_transfers`, `ensure_key` from `services/repo.py`
  (the idempotent ledger-mutation protocol over the `orders_confirmed`,
  `transfers_confirmed` and `inventory_levels` tables);
* `risk_table`'s per-row classification from `features/risk.py`;
* `compute_future_state` from `features/future.py`;
* `z_from_service_level`, `compute_rop_s`, `suggest_order_for_row`
  from `inventory.py`;
* `suggest_transfers` / `_nearest_donors_for_receiver` from `optimizer.py`.

The database tables are modelled as lists; the `inventory_levels` table,
whose unique constraint is `(org_id, store_id, sku_id)`, is an association
list from that key to the integral `on_hand` value.  Python `None` /
non-coercible quantities are modelled as `Option Int` (`none` = skipped).
-/

namespace Multifronts

/-- Unique key of an `inventory_levels` row: `(org_id, store_id, sku_id)`. -/
structure Key where
  org : String
  store : String
  sku : String
deriving DecidableEq, Repr

/-- A row of the `orders_confirmed` table (audit columns elided to the ones
the unique constraint and the ledger logic read). -/
structure OrderRec where
  org : String
  store : String
  sku : String
  qty : Int
  approvedBy : String
  idemKey : String
deriving DecidableEq, Repr

/-- A row of the `transfers_confirmed` table. -/
structure TransferRec where
  org : String
  fromStore : String
  toStore : String
  sku : String
  qty : Int
  approvedBy : String
  idemKey : String
deriving DecidableEq, Repr

/-- The mutable database state: the three tables touched by
`save_orders` / `save_transfers`. -/
structure DB where
  orders : List OrderRec
  transfers : List TransferRec
  inv : List (Key × Int)
deriving DecidableEq, Repr

/-- An input row of `save_orders` (a Python dict with `store_id`, `sku_id`,
`qty`); `qty = none` models a missing / `None` / non-int-coercible value. -/
structure OrderRow where
  store : String
  sku : String
  qty : Option Int
deriving DecidableEq, Repr

/-- An input row of `save_transfers`. -/
structure TransferRow where
  fromStore : String
  toStore : String
  sku : String
  qty : Option Int
deriving DecidableEq, Repr

/-- Idempotency key `f"{idem_prefix}:order:{store_id}:{sku_id}"`. -/
def orderIdemKey (pfx store sku : String) : String :=
  pfx ++ ":order:" ++ store ++ ":" ++ sku

/-- Idempotency key `f"{idem_prefix}:transfer:{from}:{to}:{sku}"`. -/
def transferIdemKey (pfx f t sku : String) : String :=
  pfx ++ ":transfer:" ++ f ++ ":" ++ t ++ ":" ++ sku

/-- The `uq_orders_idem` unique constraint `(org_id, store_id, sku_id,
idem_key)`: does an order record with this key already exist? -/
def ordersHasKey (db : DB) (org store sku ik : String) : Bool :=
  db.orders.any (fun o =>
    decide (o.org = org ∧ o.store = store ∧ o.sku = sku ∧ o.idemKey = ik))

/-- The `uq_transfers_idem` unique constraint
`(org_id, from_store, to_store, sku_id, idem_key)`. -/
def transfersHasKey (db : DB) (org f t sku ik : String) : Bool :=
  db.transfers.any (fun o =>
    decide (o.org = org ∧ o.fromStore = f ∧ o.toStore = t ∧ o.sku = sku ∧
      o.idemKey = ik))

/-- Look up the `on_hand` of the (unique) inventory row with this key. -/
def invLookup : List (Key × Int) → Key → Option Int
  | [], _ => none
  | (k', v) :: t, k => if k' = k then some v else invLookup t k

/-- `UPDATE inventory_levels SET on_hand = w WHERE key = k` (the key is
unique, so only the first matching row is replaced). -/
def invSetFirst : List (Key × Int) → Key → Int → List (Key × Int)
  | [], _, _ => []
  | (k', v) :: t, k, w =>
    if k' = k then (k', w) :: t else (k', v) :: invSetFirst t k w

/-- `_ensure_key` of `save_transfers`: `INSERT ... VALUES (key, 0)
ON CONFLICT DO NOTHING` — create the ledger row at zero if missing. -/
def ensure_key (inv : List (Key × Int)) (k : Key) : List (Key × Int) :=
  match invLookup inv k with
  | some _ => inv
  | none => inv ++ [(k, 0)]

/-- Destination upsert of `save_transfers`:
`INSERT ... VALUES (key, q) ON CONFLICT DO UPDATE SET on_hand = on_hand + q`. -/
def upsertAdd (inv : List (Key × Int)) (k : Key) (q : Int) :
    List (Key × Int) :=
  match invLookup inv k with
  | some v => invSetFirst inv k (v + q)
  | none => inv ++ [(k, q)]

/-- Conditional decrement of `save_transfers`:
`UPDATE ... SET on_hand = on_hand - q WHERE key = k AND on_hand >= q`;
returns the new table and the SQL rowcount (0 or 1). -/
def condDecrement (inv : List (Key × Int)) (k : Key) (q : Int) :
    List (Key × Int) × Nat :=
  match invLookup inv k with
  | some v => if q ≤ v then (invSetFirst inv k (v - q), 1) else (inv, 0)
  | none => (inv, 0)

/-- `on_hand` at a key, reading an absent row as 0. -/
def invVal (inv : List (Key × Int)) (k : Key) : Int :=
  (invLookup inv k).getD 0

/-- Total `on_hand` over all stores of one `(org_id, sku_id)`. -/
def skuTotal (inv : List (Key × Int)) (org sku : String) : Int :=
  match inv with
  | [] => 0
  | (k, v) :: t =>
    (if k.org = org ∧ k.sku = sku then v else 0) + skuTotal t org sku

/-- All ledger rows have non-negative `on_hand`. -/
def invNonneg (inv : List (Key × Int)) : Prop := ∀ p ∈ inv, 0 ≤ p.2

instance (inv : List (Key × Int)) : Decidable (invNonneg inv) :=
  List.decidableBAll _ inv

/-- The body of the `for r in rows` loop of `save_orders`
(`services/repo.py`): skip missing / non-positive quantities, attempt the
idempotent insert, count new vs duplicate.  `save_orders` never touches
`inventory_levels` (its docstring: orders do not affect `on_hand`). -/
def applyOrderRow (org approvedBy pfx : String) (acc : DB × Nat × Nat)
    (r : OrderRow) : DB × Nat × Nat :=
  let db := acc.1
  let nuevos := acc.2.1
  let duplicados := acc.2.2
  match r.qty with
  | none => (db, nuevos, duplicados)
  | some q =>
    if q ≤ 0 then (db, nuevos, duplicados)
    else
      let ik := orderIdemKey pfx r.store r.sku
      if ordersHasKey db org r.store r.sku ik then
        (db, nuevos, duplicados + 1)
      else
        ({ db with
            orders := db.orders ++ [⟨org, r.store, r.sku, q, approvedBy, ik⟩] },
          nuevos + 1, duplicados)

/-- `save_orders` (`services/repo.py`): idempotent insert of order records;
returns the new state and `(nuevos, duplicados)`. -/
def save_orders (org : String) (rows : List OrderRow)
    (approvedBy pfx : String) (db : DB) : DB × Nat × Nat :=
  rows.foldl (applyOrderRow org approvedBy pfx) (db, 0, 0)

/-- Per-row outcome of the `save_transfers` loop. -/
inductive TOutcome where
  | skipped
  | duplicate
  | insufficient
  | applied
deriving DecidableEq, Repr

/-- The body of the `for r in rows` loop of `save_transfers`
(`services/repo.py`): validate the quantity, skip self-transfers, attempt
the idempotent record insert (duplicate ⇒ no stock effect), ensure both
ledger keys exist at zero, conditionally decrement the source
(`on_hand >= qty` in the WHERE clause), and on success upsert-add the
destination. -/
def applyTransferRow (org approvedBy pfx : String) (db : DB)
    (r : TransferRow) : DB × TOutcome :=
  match r.qty with
  | none => (db, TOutcome.skipped)
  | some q =>
    if q ≤ 0 then (db, TOutcome.skipped)
    else if r.fromStore = r.toStore then (db, TOutcome.skipped)
    else
      let ik := transferIdemKey pfx r.fromStore r.toStore r.sku
      if transfersHasKey db org r.fromStore r.toStore r.sku ik then
        (db, TOutcome.duplicate)
      else
        let db1 : DB :=
          { db with transfers := db.transfers ++
              [⟨org, r.fromStore, r.toStore, r.sku, q, approvedBy, ik⟩] }
        let kf : Key := ⟨org, r.fromStore, r.sku⟩
        let kt : Key := ⟨org, r.toStore, r.sku⟩
        let inv1 := ensure_key (ensure_key db1.inv kf) kt
        let dec := condDecrement inv1 kf q
        if dec.2 ≠ 1 then ({ db1 with inv := dec.1 }, TOutcome.insufficient)
        else ({ db1 with inv := upsertAdd dec.1 kt q }, TOutcome.applied)

/-- `save_transfers` (`services/repo.py`): fold the per-row step over the
batch, returning the state and `(applied, duplicated, insufficient)`. -/
def save_transfers (org : String) (rows : List TransferRow)
    (approvedBy pfx : String) (db : DB) : DB × Nat × Nat × Nat :=
  rows.foldl (fun acc r =>
    let st := applyTransferRow org approvedBy pfx acc.1 r
    match st.2 with
    | TOutcome.skipped => (st.1, acc.2)
    | TOutcome.duplicate => (st.1, acc.2.1, acc.2.2.1 + 1, acc.2.2.2)
    | TOutcome.insufficient => (st.1, acc.2.1, acc.2.2.1, acc.2.2.2 + 1)
    | TOutcome.applied => (st.1, acc.2.1 + 1, acc.2.2.1, acc.2.2.2))
    (db, 0, 0, 0)

/-- One call of `save_transfers` as seen by the invariant claims: an
organisation, a row batch, the approver and the idempotency key stem. -/
structure TransferBatch where
  org : String
  rows : List TransferRow
  approvedBy : String
  pfx : String

/-- A sequence of `save_transfers` calls, keeping only the state. -/
def runTransferBatches (db : DB) (bs : List TransferBatch) : DB :=
  bs.foldl (fun d b => (save_transfers b.org b.rows b.approvedBy b.pfx d).1) db

/-! ## RiskClassifier (`features/risk.py`, lines 13–26)

`days_of_cover = on_hand / avg if avg > 0 else np.inf`; the label is
`np.select` over the conditions in priority order.  `np.inf` is modelled as
`Option ℚ` with `none` = infinity, with the comparisons `inf < x = False`
and `inf > 45 = True` matching IEEE infinity against finite values. -/

/-- `days_of_cover` column: `on_hand / avg` when `avg > 0`, else infinity. -/
def days_of_cover (onHand avg : ℚ) : Option ℚ :=
  if 0 < avg then some (onHand / avg) else none

/-- `d < x` where `d` may be infinity (infinity is never `<` a finite x). -/
def docLtBool : Option ℚ → ℚ → Bool
  | none, _ => false
  | some v, x => decide (v < x)

/-- `d > x` where `d` may be infinity (infinity is `>` every finite x). -/
def docGtBool : Option ℚ → ℚ → Bool
  | none, _ => true
  | some v, x => decide (x < v)

/-- The per-row `np.select` classification of `risk_table`: first matching
condition wins, default `"Normal"`. -/
def risk_label (avg onHand ltMean : ℚ) : String :=
  if avg = 0 then "Baja demanda"
  else if docLtBool (days_of_cover onHand avg) ltMean then "Riesgo de quiebre"
  else if docGtBool (days_of_cover onHand avg) 45 then "Sobrestock"
  else "Normal"

/-! ## FutureStateProjector (`features/future.py`, `compute_future_state`) -/

/-- A row of the inventory snapshot passed to `compute_future_state`
(the `date` column plays no role in the arithmetic and is elided). -/
structure SnapRow where
  store : String
  sku : String
  onHand : Int
deriving DecidableEq, Repr

/-- Working row while transfers are being applied: the single mutable
`on_hand_before` column of the code. -/
structure WorkRow where
  store : String
  sku : String
  val : Int
deriving DecidableEq, Repr

/-- Working row once the `on_hand_after_transfers` column has been copied
from `on_hand_before`: `bef` is the (already transfer-mutated)
`on_hand_before` column, `aft` the `on_hand_after_transfers` column. -/
structure WR2 where
  store : String
  sku : String
  bef : Int
  aft : Int
deriving DecidableEq, Repr

/-- An output row of `compute_future_state`; `on_hand_after_orders = none`
when the column is not produced. -/
structure FutRow where
  store : String
  sku : String
  on_hand_before : Int
  on_hand_after_transfers : Int
  on_hand_after_orders : Option Int
  delta_on_hand : Int
deriving DecidableEq, Repr

/-- One iteration of the transfer loop of `compute_future_state`: rows
whose key matches `from_store` get `on_hand_before` replaced by
`max 0 (on_hand_before - qty)` (pandas `.sub(...).clip(lower=0)`), then
rows matching `to_store` get `qty` added; a row with a non-coercible `qty`
is skipped. -/
def applyTransferToSnap (rows : List WorkRow) (t : TransferRow) :
    List WorkRow :=
  match t.qty with
  | none => rows
  | some q =>
    let r1 := rows.map (fun p =>
      if p.store = t.fromStore ∧ p.sku = t.sku then
        { p with val := max 0 (p.val - q) } else p)
    r1.map (fun p =>
      if p.store = t.toStore ∧ p.sku = t.sku then
        { p with val := p.val + q } else p)

/-- One iteration of the order loop: add `qty` to the
`on_hand_after_transfers` column of matching rows. -/
def addOrderToRows (rows : List WR2) (o : OrderRow) : List WR2 :=
  match o.qty with
  | none => rows
  | some q => rows.map (fun p =>
      if p.store = o.store ∧ p.sku = o.sku then
        { p with aft := p.aft + q } else p)

/-- `compute_future_state` (`features/future.py`): note that the code
applies each transfer row to the `on_hand_before` column *in place* and
only afterwards copies it into `on_hand_after_transfers`, and that the
order quantities are then added to the `on_hand_after_transfers` column
itself before it is copied to `on_hand_after_orders`;
`delta_on_hand` is the difference of the two final columns. -/
def compute_future_state (snap : List SnapRow) (ordersC : List OrderRow)
    (transfersC : List TransferRow) (includeOrdersInFuture : Bool) :
    List FutRow :=
  let base := snap.map (fun s => WorkRow.mk s.store s.sku s.onHand)
  let afterT := transfersC.foldl applyTransferToSnap base
  let rows2 := afterT.map (fun w => WR2.mk w.store w.sku w.val w.val)
  let hasOrders := includeOrdersInFuture && !ordersC.isEmpty
  let rows3 := if hasOrders then ordersC.foldl addOrderToRows rows2 else rows2
  rows3.map (fun p => FutRow.mk p.store p.sku p.bef p.aft
    (if hasOrders then some p.aft else none) (p.aft - p.bef))

/-! ## ReorderModel (`inventory.py`)

Python floats are modelled as exact rationals; the anchor table constants
are the decimal literals of `_Z_TABLE`. -/

/-- `_Z_TABLE`: the (percentile, z) anchor pairs. -/
def zTable : List (ℚ × ℚ) :=
  [(80/100, 8416/10000), (85/100, 1036/1000), (90/100, 12816/10000),
   (95/100, 16449/10000), (975/1000, 196/100), (98/100, 2054/1000),
   (99/100, 23263/10000)]

/-- The `for (p0, z0), (p1, z1) in zip(table[:-1], table[1:])` scan of
`z_from_service_level`, with its `return 1.6449` fallback. -/
def zScan : List (ℚ × ℚ) → ℚ → ℚ
  | (p0, z0) :: (p1, z1) :: t, p =>
    if p0 ≤ p ∧ p ≤ p1 then z0 + (p - p0) / (p1 - p0) * (z1 - z0)
    else zScan ((p1, z1) :: t) p
  | _, _ => 16449/10000

/-- `z_from_service_level` (`inventory.py`): clamp to `[0.80, 0.99]`
(`np.clip`), return the end anchors outside the table, else interpolate
linearly on the first bracketing anchor pair. -/
def z_from_service_level (p : ℚ) : ℚ :=
  let q := max (80/100) (min p (99/100))
  if q ≤ 80/100 then 8416/10000
  else if 99/100 ≤ q then 23263/10000
  else zScan zTable q

/-- `compute_rop_s` (`inventory.py`): returns
`(max 0 ROP, max 0 S, mu_LT, sigma_LT, z)`. -/
def compute_rop_s (avgDailySales ltMean ltStd serviceLevel orderUpFactor : ℚ) :
    ℚ × ℚ × ℚ × ℚ × ℚ :=
  let a := max 0 avgDailySales
  let m := max 0 ltMean
  let s := max 0 ltStd
  let z := z_from_service_level serviceLevel
  let muLt := a * m
  let sigmaLt := a * s
  let rop := muLt + z * sigmaLt
  let lvlS := rop + orderUpFactor * muLt
  (max 0 rop, max 0 lvlS, muLt, sigmaLt, z)

/-- The suggested quantity of `suggest_order_for_row`:
`max(0, int(np.ceil(S - on_hand)))`. -/
def suggested_qty (lvlS onHand : ℚ) : Int := max 0 ⌈lvlS - onHand⌉

/-! ## TransferMatcher (`optimizer.py`)

The embedding covers the code path exercised by the specification's
Scenario 3 and the claims: `distances = None` (so
`_nearest_donors_for_receiver` returns `df.head(k)` and every
`distance_km` / `cost_est` is NaN, modelled `none`) and no
`allowed_stores` / `allowed_skus` lists (both falsy, so the allow-list
filters are skipped). -/

/-- An input row of `suggest_transfers` (columns the optimizer reads). -/
structure EnrichedRow where
  store_id : String
  sku_id : String
  on_hand_units : ℚ
  ROP : ℚ
  S_level : ℚ
  risk : String
deriving DecidableEq, Repr

/-- `need_qty = (ROP - on_hand_units).clip(lower=0).astype(int)`
(truncation of a non-negative float is its floor). -/
def need_qty (r : EnrichedRow) : Int := ⌊max 0 (r.ROP - r.on_hand_units)⌋

/-- `surplus_qty = (on_hand_units - S_level).clip(lower=0).astype(int)`. -/
def surplus_qty (r : EnrichedRow) : Int := ⌊max 0 (r.on_hand_units - r.S_level)⌋

/-- A receiver row (`store_id`, `sku_id`, `need_qty`). -/
structure RecRow where
  store_id : String
  sku_id : String
  needQ : Int
deriving DecidableEq, Repr

/-- A donor row (`store_id`, `sku_id`, in-memory `surplus_qty`). -/
structure DonRow where
  store_id : String
  sku_id : String
  surplusQ : Int
deriving DecidableEq, Repr

/-- An output row of `suggest_transfers`; in the no-distance-matrix path
`distance_km` and `cost_est` are NaN, modelled as `none`. -/
structure TransferSuggestion where
  sku_id : String
  from_store : String
  to_store : String
  qty : Int
  distance_km : Option ℚ
  cost_est : Option ℚ
deriving DecidableEq, Repr

/-- Insert into a sorted duplicate-free list of strings (used to model
Python's `sorted(set(...))`). -/
def insertSortedUnique (a : String) : List String → List String
  | [] => [a]
  | b :: t =>
    if a = b then b :: t
    else if a < b then a :: b :: t
    else b :: insertSortedUnique a t

/-- `sorted(set(l))`. -/
def sortedUnique (l : List String) : List String := l.foldr insertSortedUnique []

/-- Insertion step of the descending-by-`need_qty` sort of the receivers
(`rec_sku.sort_values("need_qty", ascending=False)`). -/
def insertByNeedDesc (r : RecRow) : List RecRow → List RecRow
  | [] => [r]
  | b :: t => if b.needQ ≤ r.needQ then r :: b :: t else b :: insertByNeedDesc r t

/-- Sort receivers by descending need. -/
def sortReceiversDesc (l : List RecRow) : List RecRow := l.foldr insertByNeedDesc []

/-- `_nearest_donors_for_receiver` with `distances = None`: filter the
donors to the sku and return the first `k` in table order (`df.head(k)`). -/
def nearest_donors_for_receiver (donors : List DonRow) (sku : String)
    (k : Nat) : List DonRow :=
  (donors.filter (fun d => decide (d.sku_id = sku))).take k

/-- The inner donor loop for one receiver: walk the captured `near` rows,
reading each donor's surplus from that snapshot, assign
`qty = min(need, surplus)` unless below `min_batch`, append the proposal,
and decrement the donor's surplus in the live `don_sku` table
(`.clip(lower=0)`); stop as soon as the need is exhausted.
Returns the remaining need, the updated donor table and the output rows. -/
def assignDonors (sku recvStore : String) (minBatch : Int) :
    List DonRow → Int → List DonRow → List TransferSuggestion →
    Int × List DonRow × List TransferSuggestion
  | [], need, donSku, acc => (need, donSku, acc)
  | d :: rest, need, donSku, acc =>
    if need ≤ 0 then (need, donSku, acc)
    else
      let surplus := max d.surplusQ 0
      if surplus ≤ 0 then assignDonors sku recvStore minBatch rest need donSku acc
      else
        let qty := min need surplus
        if qty < minBatch then assignDonors sku recvStore minBatch rest need donSku acc
        else
          let row : TransferSuggestion := ⟨sku, d.store_id, recvStore, qty, none, none⟩
          let donSku' := donSku.map (fun x =>
            if x.store_id = d.store_id then
              { x with surplusQ := max 0 (x.surplusQ - qty) } else x)
          assignDonors sku recvStore minBatch rest (need - qty) donSku' (acc ++ [row])

/-- The receiver loop for one sku: skip receivers with no need, capture the
nearest donors from the current donor table, run the donor loop, and thread
the updated donor table to the next receiver. -/
def processReceivers (minBatch : Int) :
    List RecRow → List DonRow → List TransferSuggestion →
    List DonRow × List TransferSuggestion
  | [], donSku, acc => (donSku, acc)
  | r :: rest, donSku, acc =>
    if r.needQ ≤ 0 then processReceivers minBatch rest donSku acc
    else
      let near := nearest_donors_for_receiver donSku r.sku_id 5
      if near.isEmpty then processReceivers minBatch rest donSku acc
      else
        let res := assignDonors r.sku_id r.store_id minBatch near r.needQ donSku acc
        processReceivers minBatch rest res.2.1 res.2.2

/-- The sort key comparison of the per-sku cap:
`key = (np.nan_to_num(distance_km, nan=1e9), -qty)`, ascending
lexicographically; `capKeyLe a b` holds when `a`'s key is `≤` `b`'s. -/
def capKeyLe (a b : TransferSuggestion) : Bool :=
  let da := a.distance_km.getD 1000000000
  let db := b.distance_km.getD 1000000000
  decide (da < db) || (decide (da = db) && decide (b.qty ≤ a.qty))

/-- Stable insertion for the cap sort (rows tagged with their position). -/
def insertByCapKey (x : Nat × TransferSuggestion) :
    List (Nat × TransferSuggestion) → List (Nat × TransferSuggestion)
  | [] => [x]
  | y :: t => if capKeyLe x.2 y.2 then x :: y :: t else y :: insertByCapKey x t

/-- Stable sort by the cap key, as Python's stable `sorted`. -/
def sortByCapKey (l : List (Nat × TransferSuggestion)) :
    List (Nat × TransferSuggestion) := l.foldr insertByCapKey []

/-- The per-sku cap (`optimizer.py`, end of the sku loop): when more than
`max_per_sku` rows were generated for the sku, keep the `max_per_sku` rows
with the smallest cap key, preserving their generation order. -/
def capSkuRows (cap : Int) (rows : List TransferSuggestion) :
    List TransferSuggestion :=
  if 0 < cap ∧ cap < (rows.length : Int) then
    let tagged := rows.enum
    let kept := ((sortByCapKey tagged).take cap.toNat).map Prod.fst
    (tagged.filter (fun p => kept.contains p.1)).map Prod.snd
  else rows

/-- The body of the `for sku in common_skus` loop: filter and sort the
sku's receivers, copy the sku's donors, run the receiver loop (appending
to the global output list), then apply the per-sku cap to this sku's
rows (the rows of previously processed skus are untouched). -/
def processSku (receivers : List RecRow) (donorsAll : List DonRow)
    (maxPerSku minBatch : Int) (outRows : List TransferSuggestion)
    (sku : String) : List TransferSuggestion :=
  let recSku := sortReceiversDesc (receivers.filter (fun r => decide (r.sku_id = sku)))
  let donSku := donorsAll.filter (fun d => decide (d.sku_id = sku))
  let out1 := (processReceivers minBatch recSku donSku outRows).2
  let skuRows := out1.filter (fun t => decide (t.sku_id = sku))
  let others := out1.filter (fun t => decide (t.sku_id ≠ sku))
  others ++ capSkuRows maxPerSku skuRows

/-- `suggest_transfers` (`optimizer.py`) in the `distances=None`,
no-allow-list configuration: build receiver and donor tables from the
enriched rows, intersect their sku sets (sorted), run the greedy
allocation sku by sku, and drop any `from_store == to_store` row. -/
def suggest_transfers (enriched : List EnrichedRow) (maxPerSku minBatch : Int) :
    List TransferSuggestion :=
  if enriched.isEmpty then []
  else
    let receivers := (enriched.filter (fun r =>
        decide (0 < need_qty r ∨ r.risk = "Riesgo de quiebre"))).map
      (fun r => RecRow.mk r.store_id r.sku_id (need_qty r))
    let donors := (enriched.filter (fun r =>
        decide (0 < surplus_qty r ∨ r.risk = "Sobrestock"))).map
      (fun r => DonRow.mk r.store_id r.sku_id (surplus_qty r))
    if receivers.isEmpty || donors.isEmpty then []
    else
      let commonSkus := sortedUnique ((receivers.map RecRow.sku_id).filter
        (fun s => donors.any (fun d => decide (d.sku_id = s))))
      let outRows := commonSkus.foldl (processSku receivers donors maxPerSku minBatch) []
      outRows.filter (fun t => decide (t.from_store ≠ t.to_store))

/-! ## Lemmas about the inventory association list -/

theorem invLookup_append_some {l1 : List (Key × Int)} {k : Key} {v : Int}
    (l2 : List (Key × Int)) (h : invLookup l1 k = some v) :
    invLookup (l1 ++ l2) k = some v := by
  induction l1 with
  | nil => simp [invLookup] at h
  | cons p t ih =>
    obtain ⟨k', w⟩ := p
    by_cases hk : k' = k
    · simpa [invLookup, hk] using h
    · rw [invLookup] at h
      rw [if_neg hk] at h
      simpa [invLookup, hk] using ih h

theorem invLookup_append_none {l1 : List (Key × Int)} {k : Key}
    (l2 : List (Key × Int)) (h : invLookup l1 k = none) :
    invLookup (l1 ++ l2) k = invLookup l2 k := by
  induction l1 with
  | nil => simp [invLookup]
  | cons p t ih =>
    obtain ⟨k', w⟩ := p
    by_cases hk : k' = k
    · simp [invLookup, hk] at h
    · rw [invLookup] at h
      rw [if_neg hk] at h
      simpa [invLookup, hk] using ih h

theorem invLookup_singleton_self (k : Key) (v : Int) :
    invLookup [(k, v)] k = some v := by
  simp [invLookup]

theorem invLookup_singleton_other {k k' : Key} (v : Int) (h : k' ≠ k) :
    invLookup [(k', v)] k = none := by
  simp [invLookup, h]

theorem lookup_ensure_self (inv : List (Key × Int)) (k : Key) :
    invLookup (ensure_key inv k) k = some (invVal inv k) := by
  cases h : invLookup inv k with
  | some v => simp [ensure_key, h, invVal]
  | none =>
    rw [ensure_key, h, invLookup_append_none _ h, invVal, h]
    simp [invLookup]

theorem lookup_ensure_other (inv : List (Key × Int)) {k k' : Key}
    (h : k' ≠ k) : invLookup (ensure_key inv k') k = invLookup inv k := by
  cases hv : invLookup inv k' with
  | some v => simp [ensure_key, hv]
  | none =>
    rw [ensure_key, hv]
    cases hk : invLookup inv k with
    | some w => rw [invLookup_append_some _ hk]
    | none =>
      rw [invLookup_append_none _ hk, invLookup_singleton_other 0 h]

theorem invVal_ensure (inv : List (Key × Int)) (k k' : Key) :
    invVal (ensure_key inv k') k = invVal inv k := by
  by_cases h : k' = k
  · subst h
    rw [invVal, lookup_ensure_self]
    rfl
  · rw [invVal, lookup_ensure_other inv h, invVal]

theorem lookup_setFirst_self {inv : List (Key × Int)} {k : Key} {v : Int}
    (w : Int) (h : invLookup inv k = some v) :
    invLookup (invSetFirst inv k w) k = some w := by
  induction inv with
  | nil => simp [invLookup] at h
  | cons p t ih =>
    obtain ⟨k', u⟩ := p
    by_cases hk : k' = k
    · simp [invLookup, invSetFirst, hk]
    · rw [invLookup] at h
      rw [if_neg hk] at h
      simp only [invSetFirst, if_neg hk, invLookup]
      exact ih h

theorem lookup_setFirst_other {k k' : Key} (inv : List (Key × Int))
    (w : Int) (h : k' ≠ k) :
    invLookup (invSetFirst inv k' w) k = invLookup inv k := by
  induction inv with
  | nil => simp [invSetFirst]
  | cons p t ih =>
    obtain ⟨k'', u⟩ := p
    by_cases hk : k'' = k'
    · subst hk
      simp only [invSetFirst, if_pos rfl, invLookup, if_neg h]
    · simp only [invSetFirst, if_neg hk, invLookup, ih]

theorem mem_setFirst {p : Key × Int} {inv : List (Key × Int)} {k : Key}
    {w : Int} (h : p ∈ invSetFirst inv k w) : p.2 = w ∨ p ∈ inv := by
  induction inv with
  | nil => simp [invSetFirst] at h
  | cons q t ih =>
    obtain ⟨k', u⟩ := q
    by_cases hk : k' = k
    · rw [invSetFirst, if_pos hk] at h
      rcases List.mem_cons.mp h with h1 | h1
      · exact Or.inl (by rw [h1])
      · exact Or.inr (List.mem_cons_of_mem _ h1)
    · rw [invSetFirst, if_neg hk] at h
      rcases List.mem_cons.mp h with h1 | h1
      · exact Or.inr (h1 ▸ List.mem_cons_self _ _)
      · rcases ih h1 with h2 | h2
        · exact Or.inl h2
        · exact Or.inr (List.mem_cons_of_mem _ h2)

theorem invLookup_nonneg {inv : List (Key × Int)} {k : Key} {v : Int}
    (hn : invNonneg inv) (h : invLookup inv k = some v) : 0 ≤ v := by
  induction inv with
  | nil => simp [invLookup] at h
  | cons p t ih =>
    obtain ⟨k', u⟩ := p
    by_cases hk : k' = k
    · rw [invLookup, if_pos hk] at h
      obtain rfl : u = v := Option.some.inj h
      exact hn _ (List.mem_cons_self _ _)
    · rw [invLookup, if_neg hk] at h
      exact ih (fun q hq => hn q (List.mem_cons_of_mem _ hq)) h

theorem invNonneg_append {l1 l2 : List (Key × Int)}
    (h1 : invNonneg l1) (h2 : invNonneg l2) : invNonneg (l1 ++ l2) := by
  intro p hp
  rcases List.mem_append.mp hp with h | h
  · exact h1 p h
  · exact h2 p h

theorem invNonneg_ensure {inv : List (Key × Int)} (k : Key)
    (h : invNonneg inv) : invNonneg (ensure_key inv k) := by
  rw [ensure_key]
  cases invLookup inv k with
  | some v => exact h
  | none =>
    refine invNonneg_append h ?_
    intro p hp
    rw [List.mem_singleton.mp hp]

theorem invNonneg_setFirst {inv : List (Key × Int)} {k : Key} {w : Int}
    (hw : 0 ≤ w) (h : invNonneg inv) : invNonneg (invSetFirst inv k w) := by
  intro p hp
  rcases mem_setFirst hp with h1 | h1
  · rw [h1]; exact hw
  · exact h p h1

theorem skuTotal_append (l1 l2 : List (Key × Int)) (org sku : String) :
    skuTotal (l1 ++ l2) org sku = skuTotal l1 org sku + skuTotal l2 org sku := by
  induction l1 with
  | nil => simp [skuTotal]
  | cons p t ih =>
    obtain ⟨k, v⟩ := p
    rw [List.cons_append, skuTotal, skuTotal, ih, add_assoc]

theorem skuTotal_ensure (inv : List (Key × Int)) (k : Key) (org sku : String) :
    skuTotal (ensure_key inv k) org sku = skuTotal inv org sku := by
  rw [ensure_key]
  cases invLookup inv k with
  | some v => rfl
  | none =>
    rw [skuTotal_append]
    simp [skuTotal]

theorem skuTotal_setFirst {inv : List (Key × Int)} {k : Key} {v : Int}
    (w : Int) (org sku : String) (h : invLookup inv k = some v)
    (hk : k.org = org ∧ k.sku = sku) :
    skuTotal (invSetFirst inv k w) org sku = skuTotal inv org sku - v + w := by
  induction inv with
  | nil => simp [invLookup] at h
  | cons p t ih =>
    obtain ⟨k', u⟩ := p
    by_cases hke : k' = k
    · rw [invLookup, if_pos hke] at h
      obtain rfl : u = v := Option.some.inj h
      rw [invSetFirst, if_pos hke, skuTotal, skuTotal, hke,
        if_pos hk, if_pos hk]
      ring
    · rw [invLookup, if_neg hke] at h
      rw [invSetFirst, if_neg hke, skuTotal, skuTotal, ih h]
      ring

theorem invVal_nonneg {inv : List (Key × Int)} (k : Key)
    (h : invNonneg inv) : 0 ≤ invVal inv k := by
  rw [invVal]
  cases hl : invLookup inv k with
  | none => exact le_refl 0
  | some v => exact invLookup_nonneg h hl

/-- Canonical form of the non-skipped, non-duplicate branch of the
`save_transfers` loop body: the transfer record is appended, both ledger
keys are ensured, and the row is applied (decrement + upsert-add) exactly
when `on_hand >= qty` at the source. -/
theorem applyTransferRow_eq (org ab pfx : String) (db : DB)
    (r : TransferRow) (q : Int) (hq : r.qty = some q) (h0 : ¬ q ≤ 0)
    (hft : ¬ r.fromStore = r.toStore)
    (hdup : transfersHasKey db org r.fromStore r.toStore r.sku
      (transferIdemKey pfx r.fromStore r.toStore r.sku) = false) :
    applyTransferRow org ab pfx db r =
      if q ≤ invVal db.inv ⟨org, r.fromStore, r.sku⟩ then
        (⟨db.orders,
          db.transfers ++ [⟨org, r.fromStore, r.toStore, r.sku, q, ab,
            transferIdemKey pfx r.fromStore r.toStore r.sku⟩],
          invSetFirst
            (invSetFirst
              (ensure_key (ensure_key db.inv ⟨org, r.fromStore, r.sku⟩)
                ⟨org, r.toStore, r.sku⟩)
              ⟨org, r.fromStore, r.sku⟩
              (invVal db.inv ⟨org, r.fromStore, r.sku⟩ - q))
            ⟨org, r.toStore, r.sku⟩
            (invVal db.inv ⟨org, r.toStore, r.sku⟩ + q)⟩,
          TOutcome.applied)
      else
        (⟨db.orders,
          db.transfers ++ [⟨org, r.fromStore, r.toStore, r.sku, q, ab,
            transferIdemKey pfx r.fromStore r.toStore r.sku⟩],
          ensure_key (ensure_key db.inv ⟨org, r.fromStore, r.sku⟩)
            ⟨org, r.toStore, r.sku⟩⟩,
          TOutcome.insufficient) := by
  have hkne : (⟨org, r.toStore, r.sku⟩ : Key) ≠ ⟨org, r.fromStore, r.sku⟩ := by
    intro hE
    injection hE with h1 h2 h3
    exact hft h2.symm
  have hkne' : (⟨org, r.fromStore, r.sku⟩ : Key) ≠ ⟨org, r.toStore, r.sku⟩ :=
    fun hE => hkne hE.symm
  have hkf : invLookup
      (ensure_key (ensure_key db.inv ⟨org, r.fromStore, r.sku⟩)
        ⟨org, r.toStore, r.sku⟩) ⟨org, r.fromStore, r.sku⟩ =
      some (invVal db.inv ⟨org, r.fromStore, r.sku⟩) := by
    rw [lookup_ensure_other _ hkne, lookup_ensure_self]
  have hkt : invLookup
      (ensure_key (ensure_key db.inv ⟨org, r.fromStore, r.sku⟩)
        ⟨org, r.toStore, r.sku⟩) ⟨org, r.toStore, r.sku⟩ =
      some (invVal db.inv ⟨org, r.toStore, r.sku⟩) := by
    rw [lookup_ensure_self, invVal_ensure]
  have hkt2 : invLookup
      (invSetFirst
        (ensure_key (ensure_key db.inv ⟨org, r.fromStore, r.sku⟩)
          ⟨org, r.toStore, r.sku⟩)
        ⟨org, r.fromStore, r.sku⟩
        (invVal db.inv ⟨org, r.fromStore, r.sku⟩ - q))
      ⟨org, r.toStore, r.sku⟩ =
      some (invVal db.inv ⟨org, r.toStore, r.sku⟩) := by
    rw [lookup_setFirst_other _ _ hkne', hkt]
  by_cases hle : q ≤ invVal db.inv ⟨org, r.fromStore, r.sku⟩
  · rw [if_pos hle]
    simp only [applyTransferRow, hq, if_neg h0, if_neg hft, hdup,
      Bool.false_eq_true, if_false, condDecrement, hkf, if_pos hle, ne_eq,
      upsertAdd, hkt2]
    simp
  · rw [if_neg hle]
    simp only [applyTransferRow, hq, if_neg h0, if_neg hft, hdup,
      Bool.false_eq_true, if_false, condDecrement, hkf, if_neg hle, ne_eq]
    simp

/-- One iteration of the `save_transfers` loop preserves non-negativity of
every ledger row. -/
theorem applyTransferRow_state_nonneg (org ab pfx : String) (db : DB)
    (r : TransferRow) (h : invNonneg db.inv) :
    invNonneg (applyTransferRow org ab pfx db r).1.inv := by
  cases hq : r.qty with
  | none => simpa [applyTransferRow, hq] using h
  | some q =>
    by_cases h0 : q ≤ 0
    · simpa [applyTransferRow, hq, if_pos h0] using h
    by_cases hft : r.fromStore = r.toStore
    · simpa [applyTransferRow, hq, if_neg h0, if_pos hft] using h
    by_cases hdup : transfersHasKey db org r.fromStore r.toStore r.sku
        (transferIdemKey pfx r.fromStore r.toStore r.sku) = true
    · simpa [applyTransferRow, hq, if_neg h0, if_neg hft, hdup] using h
    have hdup' : transfersHasKey db org r.fromStore r.toStore r.sku
        (transferIdemKey pfx r.fromStore r.toStore r.sku) = false :=
      Bool.eq_false_iff.mpr hdup
    rw [applyTransferRow_eq org ab pfx db r q hq h0 hft hdup']
    have h1 : invNonneg
        (ensure_key (ensure_key db.inv ⟨org, r.fromStore, r.sku⟩)
          ⟨org, r.toStore, r.sku⟩) :=
      invNonneg_ensure _ (invNonneg_ensure _ h)
    by_cases hle : q ≤ invVal db.inv ⟨org, r.fromStore, r.sku⟩
    · rw [if_pos hle]
      refine invNonneg_setFirst ?_ (invNonneg_setFirst ?_ h1)
      · have := invVal_nonneg (⟨org, r.toStore, r.sku⟩ : Key) h
        omega
      · omega
    · rw [if_neg hle]
      exact h1

/-- A whole `save_transfers` call preserves non-negativity. -/
theorem save_transfers_nonneg (org : String) (rows : List TransferRow)
    (ab pfx : String) (db : DB) (h : invNonneg db.inv) :
    invNonneg (save_transfers org rows ab pfx db).1.inv := by
  rw [save_transfers]
  suffices H : ∀ (acc : DB × Nat × Nat × Nat), invNonneg acc.1.inv →
      invNonneg ((rows.foldl (fun acc r =>
        let st := applyTransferRow org ab pfx acc.1 r
        match st.2 with
        | TOutcome.skipped => (st.1, acc.2)
        | TOutcome.duplicate => (st.1, acc.2.1, acc.2.2.1 + 1, acc.2.2.2)
        | TOutcome.insufficient => (st.1, acc.2.1, acc.2.2.1, acc.2.2.2 + 1)
        | TOutcome.applied => (st.1, acc.2.1 + 1, acc.2.2.1, acc.2.2.2))
        acc).1.inv) by
    exact H (db, 0, 0, 0) h
  induction rows with
  | nil => intro acc hacc; exact hacc
  | cons r t ih =>
    intro acc hacc
    rw [List.foldl_cons]
    apply ih
    have hstep := applyTransferRow_state_nonneg org ab pfx acc.1 r hacc
    cases hout : (applyTransferRow org ab pfx acc.1 r).2 <;>
      simp [hout, hstep]

/-- Any sequence of `save_transfers` calls preserves non-negativity. -/
theorem runTransferBatches_nonneg (db : DB) (bs : List TransferBatch)
    (h : invNonneg db.inv) : invNonneg (runTransferBatches db bs).inv := by
  induction bs generalizing db with
  | nil => exact h
  | cons b t ih =>
    rw [runTransferBatches, List.foldl_cons]
    exact ih _ (save_transfers_nonneg b.org b.rows b.approvedBy b.pfx db h)

theorem lookup_ensure_ensure_first (inv : List (Key × Int)) (kf kt : Key)
    (h : kt ≠ kf) :
    invLookup (ensure_key (ensure_key inv kf) kt) kf = some (invVal inv kf) := by
  rw [lookup_ensure_other _ h, lookup_ensure_self]

theorem lookup_ensure_ensure_second (inv : List (Key × Int)) (kf kt : Key) :
    invLookup (ensure_key (ensure_key inv kf) kt) kt = some (invVal inv kt) := by
  rw [lookup_ensure_self, invVal_ensure]

/-- Effect of an applied (non-duplicate, sufficient-stock) transfer row:
the source loses exactly `q`, the destination gains exactly `q`, and the
total `on_hand` of the `(org, sku)` pair over all stores is unchanged;
moreover the row can only be applied when `on_hand >= q` at the source. -/
theorem applyTransferRow_applied_effect (org ab pfx : String) (db dbF : DB)
    (r : TransferRow) (q : Int) (hq : r.qty = some q)
    (h : applyTransferRow org ab pfx db r = (dbF, TOutcome.applied)) :
    invVal dbF.inv ⟨org, r.fromStore, r.sku⟩ =
      invVal db.inv ⟨org, r.fromStore, r.sku⟩ - q ∧
    invVal dbF.inv ⟨org, r.toStore, r.sku⟩ =
      invVal db.inv ⟨org, r.toStore, r.sku⟩ + q ∧
    skuTotal dbF.inv org r.sku = skuTotal db.inv org r.sku ∧
    q ≤ invVal db.inv ⟨org, r.fromStore, r.sku⟩ := by
  by_cases h0 : q ≤ 0
  · simp [applyTransferRow, hq, if_pos h0] at h
  by_cases hft : r.fromStore = r.toStore
  · simp [applyTransferRow, hq, if_neg h0, if_pos hft] at h
  by_cases hdup : transfersHasKey db org r.fromStore r.toStore r.sku
      (transferIdemKey pfx r.fromStore r.toStore r.sku) = true
  · simp [applyTransferRow, hq, if_neg h0, if_neg hft, hdup] at h
  have hdup' : transfersHasKey db org r.fromStore r.toStore r.sku
      (transferIdemKey pfx r.fromStore r.toStore r.sku) = false :=
    Bool.eq_false_iff.mpr hdup
  rw [applyTransferRow_eq org ab pfx db r q hq h0 hft hdup'] at h
  have hkne : (⟨org, r.toStore, r.sku⟩ : Key) ≠ ⟨org, r.fromStore, r.sku⟩ := by
    intro hE
    injection hE with h1 h2 h3
    exact hft h2.symm
  have hkne' : (⟨org, r.fromStore, r.sku⟩ : Key) ≠ ⟨org, r.toStore, r.sku⟩ :=
    fun hE => hkne hE.symm
  by_cases hle : q ≤ invVal db.inv ⟨org, r.fromStore, r.sku⟩
  · rw [if_pos hle] at h
    rw [Prod.mk.injEq] at h
    obtain ⟨hdb, -⟩ := h
    subst hdb
    have hkf := lookup_ensure_ensure_first db.inv
      ⟨org, r.fromStore, r.sku⟩ ⟨org, r.toStore, r.sku⟩ hkne
    have hkt := lookup_ensure_ensure_second db.inv
      ⟨org, r.fromStore, r.sku⟩ ⟨org, r.toStore, r.sku⟩
    have hkt2 : invLookup
        (invSetFirst
          (ensure_key (ensure_key db.inv ⟨org, r.fromStore, r.sku⟩)
            ⟨org, r.toStore, r.sku⟩)
          ⟨org, r.fromStore, r.sku⟩
          (invVal db.inv ⟨org, r.fromStore, r.sku⟩ - q))
        ⟨org, r.toStore, r.sku⟩ =
        some (invVal db.inv ⟨org, r.toStore, r.sku⟩) := by
      rw [lookup_setFirst_other _ _ hkne', hkt]
    refine ⟨?_, ?_, ?_, hle⟩
    · rw [invVal, lookup_setFirst_other _ _ hkne,
        lookup_setFirst_self _ hkf]
      rfl
    · rw [invVal, lookup_setFirst_self _ hkt2]
      rfl
    · rw [skuTotal_setFirst _ org r.sku hkt2 ⟨rfl, rfl⟩,
        skuTotal_setFirst _ org r.sku hkf ⟨rfl, rfl⟩,
        skuTotal_ensure, skuTotal_ensure]
      ring
  · rw [if_neg hle] at h
    simp at h

/-- A re-submitted transfer row (idempotency key already present) is a pure
duplicate: the state is entirely unchanged. -/
theorem applyTransferRow_duplicate (org ab pfx : String) (db : DB)
    (r : TransferRow) (q : Int) (hq : r.qty = some q) (h0 : ¬ q ≤ 0)
    (hft : ¬ r.fromStore = r.toStore)
    (hdup : transfersHasKey db org r.fromStore r.toStore r.sku
      (transferIdemKey pfx r.fromStore r.toStore r.sku) = true) :
    applyTransferRow org ab pfx db r = (db, TOutcome.duplicate) := by
  simp [applyTransferRow, hq, if_neg h0, if_neg hft, hdup]

/-- `applyOrderRow` never touches the inventory or transfer tables. -/
theorem applyOrderRow_frame (org ab pfx : String) (acc : DB × Nat × Nat)
    (r : OrderRow) :
    (applyOrderRow org ab pfx acc r).1.inv = acc.1.inv ∧
    (applyOrderRow org ab pfx acc r).1.transfers = acc.1.transfers := by
  cases hq : r.qty with
  | none => simp [applyOrderRow, hq]
  | some q =>
    by_cases h0 : q ≤ 0
    · simp [applyOrderRow, hq, if_pos h0]
    by_cases hdup : ordersHasKey acc.1 org r.store r.sku
        (orderIdemKey pfx r.store r.sku) = true
    · simp [applyOrderRow, hq, if_neg h0, hdup]
    · simp [applyOrderRow, hq, if_neg h0, hdup]

/-- `save_orders` never touches the inventory or transfer tables. -/
theorem save_orders_frame (org : String) (rows : List OrderRow)
    (ab pfx : String) (db : DB) :
    (save_orders org rows ab pfx db).1.inv = db.inv ∧
    (save_orders org rows ab pfx db).1.transfers = db.transfers := by
  rw [save_orders]
  suffices H : ∀ (acc : DB × Nat × Nat),
      (rows.foldl (applyOrderRow org ab pfx) acc).1.inv = acc.1.inv ∧
      (rows.foldl (applyOrderRow org ab pfx) acc).1.transfers =
        acc.1.transfers by
    exact H (db, 0, 0)
  induction rows with
  | nil => intro acc; exact ⟨rfl, rfl⟩
  | cons r t ih =>
    intro acc
    rw [List.foldl_cons]
    obtain ⟨h1, h2⟩ := ih (applyOrderRow org ab pfx acc r)
    obtain ⟨g1, g2⟩ := applyOrderRow_frame org ab pfx acc r
    exact ⟨h1.trans g1, h2.trans g2⟩

/-- The order record inserted for a valid row. -/
def orderRecOf (org ab pfx : String) (r : OrderRow) : OrderRec :=
  ⟨org, r.store, r.sku, (r.qty.getD 0), ab, orderIdemKey pfx r.store r.sku⟩

theorem save_orders_foldl_fresh (org ab pfx : String) :
    ∀ (rows : List OrderRow) (db : DB) (n d : Nat),
    (∀ r ∈ rows, ∃ q, r.qty = some q ∧ 0 < q) →
    (∀ r ∈ rows, ordersHasKey db org r.store r.sku
      (orderIdemKey pfx r.store r.sku) = false) →
    rows.Pairwise (fun a b => a.store ≠ b.store ∨ a.sku ≠ b.sku) →
    rows.foldl (applyOrderRow org ab pfx) (db, n, d) =
      (⟨db.orders ++ rows.map (orderRecOf org ab pfx), db.transfers, db.inv⟩,
        n + rows.length, d) := by
  intro rows
  induction rows with
  | nil => intro db n d _ _ _; simp
  | cons r t ih =>
    intro db n d hval hfresh hdist
    obtain ⟨q, hq, hqpos⟩ := hval r (List.mem_cons_self _ _)
    have h0 : ¬ q ≤ 0 := by omega
    have hf : ordersHasKey db org r.store r.sku
        (orderIdemKey pfx r.store r.sku) = false :=
      hfresh r (List.mem_cons_self _ _)
    rw [List.foldl_cons]
    have hstep : applyOrderRow org ab pfx (db, n, d) r =
        (⟨db.orders ++ [orderRecOf org ab pfx r], db.transfers, db.inv⟩,
          n + 1, d) := by
      simp [applyOrderRow, hq, if_neg h0, hf, orderRecOf]
    rw [hstep]
    have hdist' := (List.pairwise_cons.mp hdist).2
    have hhead := (List.pairwise_cons.mp hdist).1
    rw [ih _ (n + 1) d (fun x hx => hval x (List.mem_cons_of_mem _ hx))
      ?_ hdist']
    · rw [Prod.mk.injEq, Prod.mk.injEq]
      refine ⟨?_, by simp only [List.length_cons]; omega, rfl⟩
      rw [DB.mk.injEq]
      refine ⟨?_, rfl, rfl⟩
      rw [List.append_assoc]
      rfl
    · intro x hx
      have hx' := hfresh x (List.mem_cons_of_mem _ hx)
      rw [ordersHasKey] at hx' ⊢
      rw [List.any_append, hx']
      simp only [Bool.false_or, List.any_cons, List.any_nil, Bool.or_false]
      rcases hhead x hx with hst | hsk
      · simp [orderRecOf, hst]
      · simp [orderRecOf, hsk]

theorem save_orders_foldl_dup (org ab pfx : String) :
    ∀ (rows : List OrderRow) (db : DB) (n d : Nat),
    (∀ r ∈ rows, ∃ q, r.qty = some q ∧ 0 < q) →
    (∀ r ∈ rows, ordersHasKey db org r.store r.sku
      (orderIdemKey pfx r.store r.sku) = true) →
    rows.foldl (applyOrderRow org ab pfx) (db, n, d) = (db, n, d + rows.length) := by
  intro rows
  induction rows with
  | nil => intro db n d _ _; simp
  | cons r t ih =>
    intro db n d hval hall
    obtain ⟨q, hq, hqpos⟩ := hval r (List.mem_cons_self _ _)
    have h0 : ¬ q ≤ 0 := by omega
    have hstep : applyOrderRow org ab pfx (db, n, d) r = (db, n, d + 1) := by
      simp [applyOrderRow, hq, if_neg h0,
        hall r (List.mem_cons_self _ _)]
    rw [List.foldl_cons, hstep,
      ih _ n (d + 1) (fun x hx => hval x (List.mem_cons_of_mem _ hx))
        (fun x hx => hall x (List.mem_cons_of_mem _ hx))]
    rw [Prod.mk.injEq, Prod.mk.injEq]
    exact ⟨rfl, rfl, by simp only [List.length_cons]; omega⟩

/-! ## Claim theorems -/

/-- C1 (counterexample): a first-time approval of one order row with
`qty = 5` on a ledger holding 7 units is counted in `new_count`
(`nuevos = 1`), yet the ledger `on_hand` for that `(org, store, sku)` is
*not* incremented by the row's qty: it stays 7 instead of becoming 12.
This refutes the claim that `save_orders` increments `on_hand`. -/
theorem c1_order_does_not_increment_counterexample :
    (save_orders "o" [⟨"S", "K", some 5⟩] "u" "p"
      ⟨[], [], [(⟨"o", "S", "K"⟩, 7)]⟩).2.1 = 1 ∧
    invVal (save_orders "o" [⟨"S", "K", some 5⟩] "u" "p"
      ⟨[], [], [(⟨"o", "S", "K"⟩, 7)]⟩).1.inv ⟨"o", "S", "K"⟩ = 7 ∧
    ¬ invVal (save_orders "o" [⟨"S", "K", some 5⟩] "u" "p"
      ⟨[], [], [(⟨"o", "S", "K"⟩, 7)]⟩).1.inv ⟨"o", "S", "K"⟩ =
        invVal ([(⟨"o", "S", "K"⟩, 7)]) ⟨"o", "S", "K"⟩ + 5 := by
  decide

/-- C1 (amended): for every order row inserted by `save_orders` — counted
in `new_count` or not — the ledger is never mutated: `save_orders` only
appends to the `orders_confirmed` table, so a first-time approval of an
order row leaves every ledger `on_hand` entry unchanged (the code's own
docstring: orders do not affect `on_hand`). -/
theorem c1_save_orders_leaves_ledger_unchanged (org : String)
    (rows : List OrderRow) (ab pfx : String) (db : DB) :
    (save_orders org rows ab pfx db).1.inv = db.inv :=
  (save_orders_frame org rows ab pfx db).1

/-- C2: `on_hand >= 0` is an invariant of the ledger: starting from a
state where every ledger row is non-negative, any sequence of
`save_transfers` calls, with any row batches, leaves every row
non-negative (the source decrement happens only under the
`on_hand >= qty` guard). -/
theorem c2_on_hand_nonneg_invariant (db : DB) (bs : List TransferBatch)
    (h : invNonneg db.inv) : invNonneg (runTransferBatches db bs).inv :=
  runTransferBatches_nonneg db bs h

/-- C2 (witness): a concrete non-negative state stays non-negative across
a batch sequence containing an applied transfer, a duplicate and an
insufficient row. -/
theorem c2_on_hand_nonneg_invariant_witness :
    invNonneg (runTransferBatches ⟨[], [], [(⟨"o", "A", "K"⟩, 5)]⟩
      [⟨"o", [⟨"A", "B", "K", some 3⟩, ⟨"A", "B", "K", some 3⟩,
        ⟨"B", "A", "K", some 99⟩], "u", "p"⟩,
       ⟨"o", [⟨"B", "A", "K", some 1⟩], "u", "p2"⟩]).inv :=
  c2_on_hand_nonneg_invariant _ _ (by decide)

/-- C3: a transfer row that `save_transfers` applies (outcome counted in
`applied_count`, i.e. not duplicate and not insufficient) decreases the
source `on_hand` by exactly `qty`, increases the destination `on_hand` by
exactly `qty`, and leaves the total `on_hand` of that `(org_id, sku_id)`
summed over all stores unchanged; it can only be applied when the source
held at least `qty`. -/
theorem c3_transfer_conservation (org ab pfx : String) (db dbF : DB)
    (r : TransferRow) (q : Int) (hq : r.qty = some q)
    (h : applyTransferRow org ab pfx db r = (dbF, TOutcome.applied)) :
    invVal dbF.inv ⟨org, r.fromStore, r.sku⟩ =
      invVal db.inv ⟨org, r.fromStore, r.sku⟩ - q ∧
    invVal dbF.inv ⟨org, r.toStore, r.sku⟩ =
      invVal db.inv ⟨org, r.toStore, r.sku⟩ + q ∧
    skuTotal dbF.inv org r.sku = skuTotal db.inv org r.sku ∧
    q ≤ invVal db.inv ⟨org, r.fromStore, r.sku⟩ :=
  applyTransferRow_applied_effect org ab pfx db dbF r q hq h

/-- C3 (witness): applying the concrete transfer of 3 units from A
(holding 5) to B (absent, hence created) moves exactly 3 units and
conserves the sku total. -/
theorem c3_transfer_conservation_witness :
    invVal ([(⟨"o", "A", "K"⟩, 2), (⟨"o", "B", "K"⟩, 3)])
        ⟨"o", "A", "K"⟩ =
      invVal ([(⟨"o", "A", "K"⟩, 5)]) ⟨"o", "A", "K"⟩ - 3 ∧
    invVal ([(⟨"o", "A", "K"⟩, 2), (⟨"o", "B", "K"⟩, 3)])
        ⟨"o", "B", "K"⟩ =
      invVal ([(⟨"o", "A", "K"⟩, 5)]) ⟨"o", "B", "K"⟩ + 3 ∧
    skuTotal ([(⟨"o", "A", "K"⟩, 2), (⟨"o", "B", "K"⟩, 3)]) "o" "K" =
      skuTotal ([(⟨"o", "A", "K"⟩, 5)]) "o" "K" ∧
    (3 : Int) ≤ invVal ([(⟨"o", "A", "K"⟩, 5)]) ⟨"o", "A", "K"⟩ :=
  c3_transfer_conservation "o" "u" "p"
    ⟨[], [], [(⟨"o", "A", "K"⟩, 5)]⟩
    ⟨[], [⟨"o", "A", "B", "K", 3, "u", "p:transfer:A:B:K"⟩],
      [(⟨"o", "A", "K"⟩, 2), (⟨"o", "B", "K"⟩, 3)]⟩
    ⟨"A", "B", "K", some 3⟩ 3 rfl (by decide)

/-- C4: idempotent replay.  Calling `save_orders` twice with the same
`idem_prefix` and the same batch of valid rows with pairwise-distinct
`(store, sku)` keys, all fresh in the initial state, yields
`(len rows, 0)` on the first call and `(0, len rows)` on the second, the
second call leaving the state (ledger included) completely unchanged;
and a transfer row whose idempotency key already exists is counted as a
duplicate and produces no mutation at all. -/
theorem c4_idempotent_replay (org ab pfx : String) (db : DB)
    (rows : List OrderRow)
    (hval : ∀ r ∈ rows, ∃ q, r.qty = some q ∧ 0 < q)
    (hfresh : ∀ r ∈ rows, ordersHasKey db org r.store r.sku
      (orderIdemKey pfx r.store r.sku) = false)
    (hdist : rows.Pairwise (fun a b => a.store ≠ b.store ∨ a.sku ≠ b.sku))
    (tr : TransferRow) (tq : Int) (htq : tr.qty = some tq) (ht0 : ¬ tq ≤ 0)
    (htne : ¬ tr.fromStore = tr.toStore)
    (htdup : transfersHasKey db org tr.fromStore tr.toStore tr.sku
      (transferIdemKey pfx tr.fromStore tr.toStore tr.sku) = true) :
    (save_orders org rows ab pfx db).2 = (rows.length, 0) ∧
    (save_orders org rows ab pfx db).1.inv = db.inv ∧
    save_orders org rows ab pfx (save_orders org rows ab pfx db).1 =
      ((save_orders org rows ab pfx db).1, 0, rows.length) ∧
    applyTransferRow org ab pfx db tr = (db, TOutcome.duplicate) := by
  have h1 := save_orders_foldl_fresh org ab pfx rows db 0 0 hval hfresh hdist
  have hso : save_orders org rows ab pfx db =
      (⟨db.orders ++ rows.map (orderRecOf org ab pfx), db.transfers, db.inv⟩,
        rows.length, 0) := by
    rw [save_orders, h1, Nat.zero_add]
  have hall : ∀ x ∈ rows,
      ordersHasKey
        ⟨db.orders ++ rows.map (orderRecOf org ab pfx), db.transfers, db.inv⟩
        org x.store x.sku (orderIdemKey pfx x.store x.sku) = true := by
    intro x hx
    have hx' := hfresh x hx
    simp only [ordersHasKey] at hx' ⊢
    rw [List.any_append, hx']
    simp only [Bool.false_or]
    rw [List.any_eq_true]
    exact ⟨orderRecOf org ab pfx x, List.mem_map_of_mem _ hx,
      by simp [orderRecOf]⟩
  have h2 := save_orders_foldl_dup org ab pfx rows
    ⟨db.orders ++ rows.map (orderRecOf org ab pfx), db.transfers, db.inv⟩
    0 0 hval hall
  refine ⟨by rw [hso], by rw [hso], ?_,
    applyTransferRow_duplicate org ab pfx db tr tq htq ht0 htne htdup⟩
  rw [hso]
  rw [save_orders, h2, Nat.zero_add]

/-- C4 (witness): one valid fresh order row replayed twice gives
`(1, 0)` then `(0, 1)` with no state change, and a duplicate-keyed
transfer row is a no-op. -/
theorem c4_idempotent_replay_witness :
    (save_orders "o" [⟨"S", "K", some 5⟩] "u" "p"
      ⟨[], [⟨"o", "A", "B", "K", 3, "u", "p:transfer:A:B:K"⟩], []⟩).2 =
        (1, 0) ∧
    (save_orders "o" [⟨"S", "K", some 5⟩] "u" "p"
      ⟨[], [⟨"o", "A", "B", "K", 3, "u", "p:transfer:A:B:K"⟩], []⟩).1.inv =
        ([] : List (Key × Int)) ∧
    save_orders "o" [⟨"S", "K", some 5⟩] "u" "p"
      (save_orders "o" [⟨"S", "K", some 5⟩] "u" "p"
        ⟨[], [⟨"o", "A", "B", "K", 3, "u", "p:transfer:A:B:K"⟩], []⟩).1 =
      ((save_orders "o" [⟨"S", "K", some 5⟩] "u" "p"
        ⟨[], [⟨"o", "A", "B", "K", 3, "u", "p:transfer:A:B:K"⟩], []⟩).1,
        0, 1) ∧
    applyTransferRow "o" "u" "p"
      ⟨[], [⟨"o", "A", "B", "K", 3, "u", "p:transfer:A:B:K"⟩], []⟩
      ⟨"A", "B", "K", some 3⟩ =
      (⟨[], [⟨"o", "A", "B", "K", 3, "u", "p:transfer:A:B:K"⟩], []⟩,
        TOutcome.duplicate) :=
  c4_idempotent_replay "o" "u" "p"
    ⟨[], [⟨"o", "A", "B", "K", 3, "u", "p:transfer:A:B:K"⟩], []⟩
    [⟨"S", "K", some 5⟩]
    (by
      intro r hr
      rw [List.mem_singleton] at hr
      subst hr
      exact ⟨5, rfl, by decide⟩)
    (by decide) (by decide)
    ⟨"A", "B", "K", some 3⟩ 3 rfl (by decide) (by decide) (by decide)

/-- C5: Scenario 2.  A fresh transfer of `qty = 10` from store A holding
5 units to store B returns `(applied, duplicate, insufficient) =
(0, 0, 1)`; the `TransferRecord` is nevertheless persisted in the
transfers table, `on_hand(A)` remains 5, and the destination receives no
increment (its ensured row stays 0); the operation is a total function —
no exception for this business-rule outcome. -/
theorem c5_insufficient_stock_scenario :
    save_transfers "o" [⟨"A", "B", "K", some 10⟩] "u" "p"
      ⟨[], [], [(⟨"o", "A", "K"⟩, 5)]⟩ =
    (⟨[], [⟨"o", "A", "B", "K", 10, "u", "p:transfer:A:B:K"⟩],
      [(⟨"o", "A", "K"⟩, 5), (⟨"o", "B", "K"⟩, 0)]⟩, 0, 0, 1) := by
  decide

/-- C6 (code bug): on the failing input — snapshot S1:10 / S2:0 for sku
K1, one confirmed transfer of 5 units S1→S2, no orders —
`compute_future_state` returns `on_hand_before = (5, 5)` (the
*post-transfer* state, because the code subtracts/adds the transfer into
the `on_hand_before` column in place before copying it) and
`delta_on_hand = (0, 0)`, instead of the snapshot baseline `(10, 0)` and
the transfer deltas `(-5, +5)` promised by its docstring
("delta vs. estado original"). -/
theorem c6_future_state_failing_input :
    compute_future_state [⟨"S1", "K1", 10⟩, ⟨"S2", "K1", 0⟩] []
      [⟨"S1", "S2", "K1", some 5⟩] true =
      [⟨"S1", "K1", 5, 5, none, 0⟩, ⟨"S2", "K1", 5, 5, none, 0⟩] ∧
    ¬ (compute_future_state [⟨"S1", "K1", 10⟩, ⟨"S2", "K1", 0⟩] []
      [⟨"S1", "S2", "K1", some 5⟩] true).map FutRow.on_hand_before =
        [10, 0] ∧
    ¬ (compute_future_state [⟨"S1", "K1", 10⟩, ⟨"S2", "K1", 0⟩] []
      [⟨"S1", "S2", "K1", some 5⟩] true).map FutRow.delta_on_hand =
        [-5, 5] := by
  decide

/-- C7: the risk classifier assigns exactly one of the four labels to
every row, in the fixed priority order: zero demand always yields
`low_demand` (`"Baja demanda"`) regardless of on-hand, with
`days_of_cover` infinite (`none`); for positive demand,
`days_of_cover = on_hand / avg`, and the remaining tests fire in order
(`< lead_time` → stockout risk, `> 45` → overstock, else normal). -/
theorem c7_risk_classifier_spec (avg onH lt : ℚ) :
    (risk_label avg onH lt = "Baja demanda" ∨
     risk_label avg onH lt = "Riesgo de quiebre" ∨
     risk_label avg onH lt = "Sobrestock" ∨
     risk_label avg onH lt = "Normal") ∧
    (avg = 0 → risk_label avg onH lt = "Baja demanda" ∧
      days_of_cover onH avg = none) ∧
    (0 < avg → days_of_cover onH avg = some (onH / avg) ∧
      (onH / avg < lt → risk_label avg onH lt = "Riesgo de quiebre") ∧
      (¬ onH / avg < lt → 45 < onH / avg →
        risk_label avg onH lt = "Sobrestock") ∧
      (¬ onH / avg < lt → ¬ 45 < onH / avg →
        risk_label avg onH lt = "Normal")) := by
  refine ⟨?_, ?_, ?_⟩
  · unfold risk_label
    split_ifs <;> simp
  · intro h0
    refine ⟨by rw [risk_label, if_pos h0], ?_⟩
    rw [days_of_cover, if_neg]
    rw [h0]
    exact lt_irrefl 0
  · intro hpos
    have hne : ¬ avg = 0 := ne_of_gt hpos
    have hdc : days_of_cover onH avg = some (onH / avg) := by
      rw [days_of_cover, if_pos hpos]
    refine ⟨hdc, ?_, ?_, ?_⟩
    · intro hlt
      simp [risk_label, hne, hdc, docLtBool, hlt]
    · intro hnlt hgt
      simp [risk_label, hne, hdc, docLtBool, docGtBool, hnlt, hgt]
    · intro hnlt hngt
      simp [risk_label, hne, hdc, docLtBool, docGtBool, hnlt, hngt]

/-- C7 (witness): one concrete row per branch — zero demand is
`low_demand` even with plenty of stock, and the three positive-demand
branches fire as specified. -/
theorem c7_risk_classifier_spec_witness :
    risk_label 0 500 7 = "Baja demanda" ∧
    risk_label 1 3 5 = "Riesgo de quiebre" ∧
    risk_label 1 50 5 = "Sobrestock" ∧
    risk_label 1 10 5 = "Normal" :=
  ⟨((c7_risk_classifier_spec 0 500 7).2.1 rfl).1,
   ((c7_risk_classifier_spec 1 3 5).2.2 (by norm_num)).2.1 (by norm_num),
   ((c7_risk_classifier_spec 1 50 5).2.2 (by norm_num)).2.2.1
     (by norm_num) (by norm_num),
   ((c7_risk_classifier_spec 1 10 5).2.2 (by norm_num)).2.2.2
     (by norm_num) (by norm_num)⟩

/-- C8: Scenario 3.  For sku K1 with the single receiver S1 (need 30,
from `ROP = 30`, `on_hand = 0`) and donors S2 (surplus 10) then S3
(surplus 50) in table order, `max_per_sku = 20`, `min_batch = 1` and no
distance matrix, the greedy matcher emits exactly two rows: S2
contributes `min(30, 10) = 10`, then S3 contributes the remaining need
`min(20, 50) = 20`; total assigned 30, distances and cost estimates
absent. -/
theorem c8_greedy_matching_scenario3 :
    suggest_transfers
      [⟨"S1", "K1", 0, 30, 100, "Normal"⟩,
       ⟨"S2", "K1", 20, 0, 10, "Normal"⟩,
       ⟨"S3", "K1", 60, 0, 10, "Normal"⟩] 20 1 =
    [⟨"K1", "S2", "S1", 10, none, none⟩,
     ⟨"K1", "S3", "S1", 20, none, none⟩] := by
  norm_num +decide [suggest_transfers, need_qty, surplus_qty, processSku,
    processReceivers, assignDonors, nearest_donors_for_receiver,
    sortReceiversDesc, insertByNeedDesc, sortedUnique, insertSortedUnique,
    capSkuRows, RecRow.sku_id, Function.comp, max_def]

/-- C9: Scenario 1, exact arithmetic.  With `avg_daily_sales = 10`,
`lead_time_mean = 5`, `lead_time_std = 1`, `service_level = 0.95`
(anchored in the z-table at `z = 1.6449`), `order_up_factor = 1` and
`on_hand = 20`: `mu_LT = 50`, `sigma_LT = 10`, `ROP = 66.449`,
`S = 116.449` and `suggested_qty = ceil(116.449 - 20) = 97`. -/
theorem c9_reorder_scenario1 :
    compute_rop_s 10 5 1 (95/100) 1 =
      (66449/1000, 116449/1000, 50, 10, 16449/10000) ∧
    suggested_qty (116449/1000) 20 = 97 := by
  constructor
  · norm_num [compute_rop_s, z_from_service_level, zScan, zTable, max_def]
  · have h : ⌈(96449/1000 : ℚ)⌉ = 97 := by
      rw [Int.ceil_eq_iff]; norm_num
    norm_num [suggested_qty, h, max_def]

/-- C10 (implicit frame effect): a valid, non-duplicate transfer row
always leaves ledger rows present for both the source and the
destination key; when the source key did not exist before, the transfer
is necessarily reported insufficient, yet both keys are created at
`on_hand = 0` (the destination staying at whatever it held, 0 if it was
absent too) — so the inventory table is *not* unchanged on the
insufficient outcome. -/
theorem c10_insufficient_creates_zero_rows (org ab pfx : String) (db : DB)
    (r : TransferRow) (q : Int) (hq : r.qty = some q) (h0 : ¬ q ≤ 0)
    (hft : ¬ r.fromStore = r.toStore)
    (hdup : transfersHasKey db org r.fromStore r.toStore r.sku
      (transferIdemKey pfx r.fromStore r.toStore r.sku) = false) :
    (invLookup (applyTransferRow org ab pfx db r).1.inv
      ⟨org, r.fromStore, r.sku⟩).isSome = true ∧
    (invLookup (applyTransferRow org ab pfx db r).1.inv
      ⟨org, r.toStore, r.sku⟩).isSome = true ∧
    (invLookup db.inv ⟨org, r.fromStore, r.sku⟩ = none →
      (applyTransferRow org ab pfx db r).2 = TOutcome.insufficient ∧
      invLookup (applyTransferRow org ab pfx db r).1.inv
        ⟨org, r.fromStore, r.sku⟩ = some 0 ∧
      (invLookup db.inv ⟨org, r.toStore, r.sku⟩ = none →
        invLookup (applyTransferRow org ab pfx db r).1.inv
          ⟨org, r.toStore, r.sku⟩ = some 0) ∧
      ¬ (applyTransferRow org ab pfx db r).1.inv = db.inv) := by
  have hkne : (⟨org, r.toStore, r.sku⟩ : Key) ≠ ⟨org, r.fromStore, r.sku⟩ := by
    intro hE
    injection hE with h1 h2 h3
    exact hft h2.symm
  have hkne' : (⟨org, r.fromStore, r.sku⟩ : Key) ≠ ⟨org, r.toStore, r.sku⟩ :=
    fun hE => hkne hE.symm
  rw [applyTransferRow_eq org ab pfx db r q hq h0 hft hdup]
  by_cases hle : q ≤ invVal db.inv ⟨org, r.fromStore, r.sku⟩
  · rw [if_pos hle]
    dsimp only
    have hkf := lookup_ensure_ensure_first db.inv
      ⟨org, r.fromStore, r.sku⟩ ⟨org, r.toStore, r.sku⟩ hkne
    have hkt2 : invLookup
        (invSetFirst
          (ensure_key (ensure_key db.inv ⟨org, r.fromStore, r.sku⟩)
            ⟨org, r.toStore, r.sku⟩)
          ⟨org, r.fromStore, r.sku⟩
          (invVal db.inv ⟨org, r.fromStore, r.sku⟩ - q))
        ⟨org, r.toStore, r.sku⟩ =
        some (invVal db.inv ⟨org, r.toStore, r.sku⟩) := by
      rw [lookup_setFirst_other _ _ hkne', lookup_ensure_ensure_second]
    refine ⟨?_, ?_, ?_⟩
    · rw [lookup_setFirst_other _ _ hkne, lookup_setFirst_self _ hkf]
      rfl
    · rw [lookup_setFirst_self _ hkt2]
      rfl
    · intro habs
      exfalso
      rw [invVal, habs] at hle
      simp only [Option.getD_none] at hle
      exact h0 hle
  · rw [if_neg hle]
    dsimp only
    refine ⟨?_, ?_, ?_⟩
    · rw [lookup_ensure_ensure_first db.inv _ _ hkne]
      rfl
    · rw [lookup_ensure_ensure_second]
      rfl
    · intro habs
      have h00 : invVal db.inv ⟨org, r.fromStore, r.sku⟩ = 0 := by
        rw [invVal, habs]
        rfl
      refine ⟨rfl, ?_, ?_, ?_⟩
      · rw [lookup_ensure_ensure_first db.inv _ _ hkne, h00]
      · intro habs2
        rw [lookup_ensure_ensure_second, invVal, habs2]
        rfl
      · intro hEq
        have hlk := lookup_ensure_ensure_first db.inv
          ⟨org, r.fromStore, r.sku⟩ ⟨org, r.toStore, r.sku⟩ hkne
        rw [hEq, habs] at hlk
        exact Option.noConfusion hlk

/-- C10 (witness): a fresh transfer of 3 units between two stores with no
ledger rows at all is reported insufficient, yet creates both rows at
zero, changing the inventory table. -/
theorem c10_insufficient_creates_zero_rows_witness :
    (invLookup (applyTransferRow "o" "u" "p" ⟨[], [], []⟩
      ⟨"A", "B", "K", some 3⟩).1.inv ⟨"o", "A", "K"⟩).isSome = true ∧
    (invLookup (applyTransferRow "o" "u" "p" ⟨[], [], []⟩
      ⟨"A", "B", "K", some 3⟩).1.inv ⟨"o", "B", "K"⟩).isSome = true ∧
    (invLookup ([] : List (Key × Int)) ⟨"o", "A", "K"⟩ = none →
      (applyTransferRow "o" "u" "p" ⟨[], [], []⟩
        ⟨"A", "B", "K", some 3⟩).2 = TOutcome.insufficient ∧
      invLookup (applyTransferRow "o" "u" "p" ⟨[], [], []⟩
        ⟨"A", "B", "K", some 3⟩).1.inv ⟨"o", "A", "K"⟩ = some 0 ∧
      (invLookup ([] : List (Key × Int)) ⟨"o", "B", "K"⟩ = none →
        invLookup (applyTransferRow "o" "u" "p" ⟨[], [], []⟩
          ⟨"A", "B", "K", some 3⟩).1.inv ⟨"o", "B", "K"⟩ = some 0) ∧
      ¬ (applyTransferRow "o" "u" "p" ⟨[], [], []⟩
        ⟨"A", "B", "K", some 3⟩).1.inv = ([] : List (Key × Int))) :=
  c10_insufficient_creates_zero_rows "o" "u" "p" ⟨[], [], []⟩
    ⟨"A", "B", "K", some 3⟩ 3 rfl (by decide) (by decide) (by decide)

end Multifronts
